import Mathlib

/-!
Verification of the k10 multiply/divide testbench core
(`src/rtl/k10/tb/tb_mul_div.cpp`): the RISC-V reference oracle
(`riscv_div`, `riscv_divu`, `riscv_rem`, `riscv_remu`), the protocol
driver (`run_div_op`, `run_mul_op`), and the conformance checker
(`check`, exit status).

Machine integers are embedded as natural numbers below `2^32`
(`4294967296`); the C `int32_t` reinterpretation is `toInt32`, and the
C `(uint32_t)` cast of a signed value is `ofInt32`.  C signed division
and remainder (truncating, defined only away from divisor zero and the
`INT_MIN / -1` overflow) are `Int.tdiv` / `Int.tmod`.
-/

namespace Komandara

/-- Reinterpret a 32-bit unsigned pattern as a signed two's-complement
integer (the C cast to `int32_t`). -/
def toInt32 (n : Nat) : Int :=
  if n < 2147483648 then (n : Int) else (n : Int) - 4294967296

/-- Low 32 bits of an integer as an unsigned pattern (the C cast of a
signed value to `uint32_t`). -/
def ofInt32 (i : Int) : Nat := (i % 4294967296).toNat

/-- Oracle for RISC-V `DIV` from `riscv_div` in tb_mul_div.cpp:
divisor zero gives all-ones, `INT_MIN / -1` gives `INT_MIN`, otherwise
the truncating signed quotient, returned as a 32-bit pattern. -/
def riscv_div (a b : Nat) : Nat :=
  if b = 0 then 4294967295
  else if a = 2147483648 ∧ b = 4294967295 then 2147483648
  else ofInt32 (Int.tdiv (toInt32 a) (toInt32 b))

/-- Oracle for RISC-V `DIVU` from `riscv_divu` in tb_mul_div.cpp. -/
def riscv_divu (a b : Nat) : Nat :=
  if b = 0 then 4294967295 else a / b

/-- Oracle for RISC-V `REM` from `riscv_rem` in tb_mul_div.cpp:
divisor zero returns the dividend pattern, `INT_MIN % -1` gives `0`,
otherwise the truncating signed remainder as a 32-bit pattern. -/
def riscv_rem (a b : Nat) : Nat :=
  if b = 0 then a
  else if a = 2147483648 ∧ b = 4294967295 then 0
  else ofInt32 (Int.tmod (toInt32 a) (toInt32 b))

/-- Oracle for RISC-V `REMU` from `riscv_remu` in tb_mul_div.cpp. -/
def riscv_remu (a b : Nat) : Nat :=
  if b = 0 then a else a % b

/-- Signed reinterpretation of an in-range pattern is at least `-2^31`
and below `2^31`. -/
lemma toInt32_bounds (n : Nat) (hn : n < 4294967296) :
    -2147483648 ≤ toInt32 n ∧ toInt32 n < 2147483648 := by
  unfold toInt32; split <;> omega

/-- Round trip: an integer in the signed 32-bit range survives the cast
to a pattern and back. -/
lemma toInt32_ofInt32 (i : Int) (h1 : -2147483648 ≤ i) (h2 : i < 2147483648) :
    toInt32 (ofInt32 i) = i := by
  unfold toInt32 ofInt32; split <;> omega

/-- The signed reinterpretation agrees with the pattern modulo `2^32`. -/
lemma toInt32_emod (n : Nat) :
    toInt32 n % 4294967296 = (n : Int) % 4294967296 := by
  unfold toInt32; split
  · rfl
  · omega

/-- The signed reinterpretation of an in-range pattern is zero exactly
for pattern zero. -/
lemma toInt32_eq_zero_iff (n : Nat) (hn : n < 4294967296) :
    toInt32 n = 0 ↔ n = 0 := by
  unfold toInt32; split <;> omega

/-- The signed reinterpretation of an in-range pattern is `INT_MIN`
exactly for the pattern `0x80000000`. -/
lemma toInt32_eq_intMin_iff (n : Nat) (hn : n < 4294967296) :
    toInt32 n = -2147483648 ↔ n = 2147483648 := by
  unfold toInt32; split <;> omega

/-- The signed reinterpretation of an in-range pattern is `-1` exactly
for the all-ones pattern `0xFFFFFFFF`. -/
lemma toInt32_eq_negOne_iff (n : Nat) (hn : n < 4294967296) :
    toInt32 n = -1 ↔ n = 4294967295 := by
  unfold toInt32; split <;> omega

/-- Outputs of the unit under test observed after one `tick()`:
`o_done`, `o_busy` and `o_result`.  A run of the driver is parametrised
by the trace `t : Nat → Obs`, where `t i` is what the testbench reads
after the `(i+1)`-th tick since `i_start` was asserted. -/
structure Obs where
  done : Bool
  busy : Bool
  result : Nat
deriving Repr, DecidableEq

/-- Polling loop of `run_div_op`: starting at tick index `i` with the
given fuel, return the cycle count and the observation of the first
tick showing `o_done`, or `none` when the fuel runs out. -/
def divLoop (t : Nat → Obs) (i fuel : Nat) : Option (Nat × Obs) :=
  match fuel with
  | 0 => none
  | fuel + 1 => if (t i).done then some (i + 1, t i) else divLoop t (i + 1) fuel

/-- Effects of one `run_div_op` call: the returned value, the increment
it applies to the global fail counter, whether the busy/done protocol
warning printed, whether it timed out, the level of `i_start` on
return, the number of ticks issued after capture or timeout, and the
value written through `cycles_out` (none when the pointer is left
untouched). -/
structure DivRun where
  result : Nat
  failIncr : Nat
  warn : Bool
  timedOut : Bool
  startAfter : Bool
  ticksAfterCapture : Nat
  cyclesOut : Option Nat
deriving Repr, DecidableEq

/-- Driver for divide-class operations, from `run_div_op` in
tb_mul_div.cpp: poll up to 200 cycles for `o_done`; on capture, warn
when `o_busy` is also high, deassert `i_start`, tick once, and report
the cycle count through `cycles_out`; on timeout, count a failure,
deassert `i_start`, tick once, and return the sentinel `0xDEADBEEF`
without touching `cycles_out`. -/
def run_div_op (t : Nat → Obs) : DivRun :=
  match divLoop t 0 200 with
  | some (cycles, obs) =>
      { result := obs.result
        failIncr := 0
        warn := obs.busy
        timedOut := false
        startAfter := false
        ticksAfterCapture := 1
        cyclesOut := some cycles }
  | none =>
      { result := 3735928559
        failIncr := 1
        warn := false
        timedOut := true
        startAfter := false
        ticksAfterCapture := 1
        cyclesOut := none }

/-- Effects of one `run_mul_op` call: the returned value (the result
observed on the single cycle after `i_start`), the fail-counter
increment (one exactly when `o_done` was low on that cycle), the level
of `i_start` on return, and the total ticks issued. -/
structure MulRun where
  result : Nat
  failIncr : Nat
  startAfter : Bool
  totalTicks : Nat
deriving Repr, DecidableEq

/-- Driver for multiply-class operations, from `run_mul_op` in
tb_mul_div.cpp: tick once, read `o_result`, count a failure when
`o_done` is low, deassert `i_start`, tick once more, and return the
observed result in every case. -/
def run_mul_op (t : Nat → Obs) : MulRun :=
  let obs := t 0
  { result := obs.result
    failIncr := if obs.done then 0 else 1
    startAfter := false
    totalTicks := 2 }

/-- Pass and fail tallies of the testbench. -/
structure Counters where
  passCount : Nat
  failCount : Nat
deriving Repr, DecidableEq

/-- Conformance check from `check` in tb_mul_div.cpp: compare the
observed and expected patterns bit-for-bit and bump exactly one
counter. -/
def check (got expected : Nat) (s : Counters) : Counters :=
  if got = expected then { s with passCount := s.passCount + 1 }
  else { s with failCount := s.failCount + 1 }

/-- Exit status computed at the end of `main`:
`fail_count > 0 ? 1 : 0`. -/
def exitStatus (failCount : Nat) : Nat :=
  if failCount > 0 then 1 else 0

/-- One divide test case as `main` runs it: call `run_div_op`, fold its
fail-counter increment into the tallies, then `check` the returned
value against the expected one. -/
def divCase (t : Nat → Obs) (expected : Nat) (s : Counters) : Counters :=
  let r := run_div_op t
  check r.result expected { s with failCount := s.failCount + r.failIncr }

/-- Caller's cycle-count variable after a `run_div_op` call that was
passed its address: it is overwritten only when `run_div_op` wrote
through `cycles_out`. -/
def callerCyclesAfter (t : Nat → Obs) (cyc : Nat) : Nat :=
  match (run_div_op t).cyclesOut with
  | none => cyc
  | some c => c

/-- When every tick in the window shows `o_done` low, the polling loop
returns `none`. -/
lemma divLoop_eq_none (t : Nat → Obs) :
    ∀ fuel i, (∀ j, i ≤ j → j < i + fuel → (t j).done = false) →
      divLoop t i fuel = none := by
  intro fuel
  induction fuel with
  | zero => intro i _; rfl
  | succ n ih =>
      intro i h
      have hi : (t i).done = false := h i le_rfl (by omega)
      simp only [divLoop, hi, Bool.false_eq_true, if_false]
      exact ih (i + 1) (fun j h1 h2 => h j (by omega) (by omega))

/-- The polling loop stops at the first tick showing `o_done` and
reports its cycle count. -/
lemma divLoop_eq_some (t : Nat → Obs) :
    ∀ fuel i j, i ≤ j → j < i + fuel → (t j).done = true →
      (∀ k, i ≤ k → k < j → (t k).done = false) →
      divLoop t i fuel = some (j + 1, t j) := by
  intro fuel
  induction fuel with
  | zero => intro i j h1 h2 _ _; omega
  | succ n ih =>
      intro i j h1 h2 h3 h4
      by_cases hi : (t i).done
      · have hij : j = i := by
          by_contra hne
          have := h4 i le_rfl (by omega)
          rw [hi] at this
          exact Bool.true_eq_false.mp this
        subst hij
        simp only [divLoop, hi, if_true]
      · have hfalse : (t i).done = false := by
          exact Bool.not_eq_true _ |>.mp hi
        have hij : i < j := by
          rcases Nat.lt_or_ge i j with h | h
          · exact h
          · exfalso
            have : i = j := by omega
            rw [this] at hfalse
            rw [h3] at hfalse
            exact Bool.true_eq_false.mp hfalse
        simp only [divLoop, hfalse, Bool.false_eq_true, if_false]
        exact ih (i + 1) j (by omega) (by omega) h3
          (fun k hk1 hk2 => h4 k (by omega) hk2)

/-- C1: for every 32-bit value `a`, the oracle's divide-by-zero results
are `DIVU(a,0) = 0xFFFFFFFF`, `REMU(a,0) = a`, `DIV(a,0) = 0xFFFFFFFF`,
and `REM(a,0) = a` with the dividend pattern unchanged. -/
theorem div_by_zero_contract (a : Nat) (_ha : a < 4294967296) :
    riscv_divu a 0 = 4294967295 ∧ riscv_remu a 0 = a ∧
    riscv_div a 0 = 4294967295 ∧ riscv_rem a 0 = a := by
  refine ⟨rfl, rfl, rfl, rfl⟩

/-- Witness for C1 at `a = 42`. -/
theorem div_by_zero_contract_witness :
    42 < 4294967296 ∧
    (riscv_divu 42 0 = 4294967295 ∧ riscv_remu 42 0 = 42 ∧
     riscv_div 42 0 = 4294967295 ∧ riscv_rem 42 0 = 42) :=
  ⟨by decide, div_by_zero_contract 42 (by decide)⟩

/-- C2: at the signed-overflow operand pair `a = 0x80000000`,
`b = 0xFFFFFFFF` (that is, `-1`), the oracle returns
`DIV = 0x80000000` and `REM = 0`. -/
theorem overflow_contract :
    riscv_div 2147483648 4294967295 = 2147483648 ∧
    riscv_rem 2147483648 4294967295 = 0 := by
  decide

/-- C3 counterexample: at the all-quiet trace (no `o_done` within 200
cycles) with expected value 3, the timeout case ends with two failures,
not one — `main` passes the sentinel to `check`, which compares it
against the oracle value and fails a second time, so the claim that the
checker does not additionally compare the sentinel is false. -/
theorem timeout_sentinel_not_skipped :
    divCase (fun _ => ⟨false, false, 0⟩) 3 ⟨0, 0⟩ = ⟨0, 2⟩ ∧
    (divCase (fun _ => ⟨false, false, 0⟩) 3 ⟨0, 0⟩).failCount ≠ 1 := by
  constructor
  · rfl
  · intro h
    rw [show divCase (fun _ => ⟨false, false, 0⟩) 3 ⟨0, 0⟩ = ⟨0, 2⟩ from rfl] at h
    exact absurd h (by decide)

/-- C3 as amended: on a timeout, `run_div_op` counts one failure,
deasserts `i_start`, ticks once, leaves `cycles_out` untouched and
returns the sentinel `0xDEADBEEF`; `main` then feeds the sentinel to
`check` like any other result, so a timeout whose expected value
differs from the sentinel is tallied as two failures. -/
theorem timeout_sentinel (t : Nat → Obs)
    (h : ∀ i, i < 200 → (t i).done = false)
    (expected : Nat) (hne : expected ≠ 3735928559) (s : Counters) :
    run_div_op t = ⟨3735928559, 1, false, true, false, 1, none⟩ ∧
    divCase t expected s = ⟨s.passCount, s.failCount + 2⟩ := by
  have hloop : divLoop t 0 200 = none :=
    divLoop_eq_none t 200 0 (fun j _ h2 => h j (by omega))
  constructor
  · unfold run_div_op
    rw [hloop]
  · unfold divCase run_div_op
    rw [hloop]
    simp only [check, if_neg (Ne.symm hne)]

/-- Witness for the amended C3 on a concrete quiet trace. -/
theorem timeout_sentinel_witness :
    run_div_op (fun _ => ⟨false, false, 7⟩) =
      ⟨3735928559, 1, false, true, false, 1, none⟩ ∧
    divCase (fun _ => ⟨false, false, 7⟩) 5 ⟨2, 3⟩ = ⟨2, 5⟩ :=
  timeout_sentinel (fun _ => ⟨false, false, 7⟩) (fun _ _ => rfl) 5 (by decide) ⟨2, 3⟩

/-- C6: for multiply-class operations the driver captures `o_result`
from the single cycle after `i_start`, counts a failure exactly when
`o_done` is low on that cycle, and in every case returns the observed
result, with `i_start` low and exactly two ticks issued. -/
theorem mul_op_behavior (t : Nat → Obs) :
    (run_mul_op t).result = (t 0).result ∧
    (run_mul_op t).failIncr = (if (t 0).done then 0 else 1) ∧
    (run_mul_op t).startAfter = false ∧
    (run_mul_op t).totalTicks = 2 :=
  ⟨rfl, rfl, rfl, rfl⟩

/-- C7: when `o_busy` is asserted on the same cycle as the first
`o_done`, `run_div_op` records the warning, does not bump the fail
counter, does not time out, and still returns the captured result,
which the checker compares as usual. -/
theorem busy_done_warning (t : Nat → Obs) (j expected : Nat) (s : Counters)
    (hj : j < 200) (hdone : (t j).done = true)
    (hfirst : ∀ k, k < j → (t k).done = false) (hbusy : (t j).busy = true) :
    (run_div_op t).warn = true ∧ (run_div_op t).failIncr = 0 ∧
    (run_div_op t).result = (t j).result ∧ (run_div_op t).timedOut = false ∧
    divCase t expected s = check ((t j).result) expected s := by
  have hloop : divLoop t 0 200 = some (j + 1, t j) :=
    divLoop_eq_some t 200 0 j (Nat.zero_le j) (by omega) hdone
      (fun k _ hk => hfirst k hk)
  refine ⟨?_, ?_, ?_, ?_, ?_⟩ <;>
    simp only [divCase, run_div_op, hloop, hbusy, Nat.add_zero]

/-- Witness for C7: a trace asserting `o_done` and `o_busy` together on
its first cycle with result 77. -/
theorem busy_done_warning_witness :
    (run_div_op (fun i => if i = 0 then ⟨true, true, 77⟩ else ⟨false, false, 0⟩)).warn = true ∧
    (run_div_op (fun i => if i = 0 then ⟨true, true, 77⟩ else ⟨false, false, 0⟩)).failIncr = 0 ∧
    (run_div_op (fun i => if i = 0 then ⟨true, true, 77⟩ else ⟨false, false, 0⟩)).result = 77 ∧
    (run_div_op (fun i => if i = 0 then ⟨true, true, 77⟩ else ⟨false, false, 0⟩)).timedOut = false ∧
    divCase (fun i => if i = 0 then ⟨true, true, 77⟩ else ⟨false, false, 0⟩) 3 ⟨0, 0⟩ =
      check 77 3 ⟨0, 0⟩ :=
  busy_done_warning (fun i => if i = 0 then ⟨true, true, 77⟩ else ⟨false, false, 0⟩)
    0 3 ⟨0, 0⟩ (by decide) rfl (fun k hk => absurd hk (Nat.not_lt_zero k)) rfl

/-- C8: each `check` call bumps exactly one of the two counters — the
pass counter on a bit-for-bit match, the fail counter otherwise — and
the process exit status is non-zero exactly when the final fail count
is non-zero. -/
theorem check_and_exit_status (got expected p f : Nat) :
    check got expected ⟨p, f⟩ =
      (if got = expected then ⟨p + 1, f⟩ else ⟨p, f + 1⟩) ∧
    (check got expected ⟨p, f⟩).passCount +
      (check got expected ⟨p, f⟩).failCount = p + f + 1 ∧
    (exitStatus f ≠ 0 ↔ f ≠ 0) := by
  unfold check exitStatus
  refine ⟨?_, ?_, ?_⟩
  · split <;> rfl
  · split <;> simp <;> omega
  · split <;> omega

/-- C10: on the timeout path `run_div_op` never writes through
`cycles_out`, so the caller's cycle-count variable keeps its prior
value. -/
theorem timeout_keeps_cycles_out (t : Nat → Obs)
    (h : ∀ i, i < 200 → (t i).done = false) (cyc : Nat) :
    (run_div_op t).cyclesOut = none ∧ callerCyclesAfter t cyc = cyc := by
  have hloop : divLoop t 0 200 = none :=
    divLoop_eq_none t 200 0 (fun j _ h2 => h j (by omega))
  unfold callerCyclesAfter run_div_op
  rw [hloop]
  exact ⟨rfl, rfl⟩

/-- Witness for C10 on a concrete quiet trace with a prior cycle count
of 7. -/
theorem timeout_keeps_cycles_out_witness :
    (run_div_op (fun _ => ⟨false, false, 1⟩)).cyclesOut = none ∧
    callerCyclesAfter (fun _ => ⟨false, false, 1⟩) 7 = 7 :=
  timeout_keeps_cycles_out (fun _ => ⟨false, false, 1⟩) (fun _ _ => rfl) 7

/-- Casting the pattern of an integer back to the integers gives its
residue modulo `2^32`. -/
lemma ofInt32_emod_cast (i : Int) :
    ((ofInt32 i : Nat) : Int) = i % 4294967296 := by
  unfold ofInt32
  exact Int.toNat_of_nonneg (Int.emod_nonneg i (by norm_num))

/-- C4: for every 32-bit `a` and nonzero `b`, away from the
`INT_MIN / -1` pair, the oracle satisfies
`DIV(a,b) * b + REM(a,b) = a` modulo `2^32`. -/
theorem signed_div_identity (a b : Nat) (ha : a < 4294967296)
    (_hb : b < 4294967296) (hb0 : b ≠ 0)
    (hov : ¬(a = 2147483648 ∧ b = 4294967295)) :
    (riscv_div a b * b + riscv_rem a b) % 4294967296 = a := by
  have hq : riscv_div a b = ofInt32 (Int.tdiv (toInt32 a) (toInt32 b)) := by
    unfold riscv_div
    rw [if_neg hb0, if_neg hov]
  have hr : riscv_rem a b = ofInt32 (Int.tmod (toInt32 a) (toInt32 b)) := by
    unfold riscv_rem
    rw [if_neg hb0, if_neg hov]
  rw [hq, hr]
  set q := Int.tdiv (toInt32 a) (toInt32 b) with hqdef
  set r := Int.tmod (toInt32 a) (toInt32 b) with hrdef
  set X := ofInt32 q * b + ofInt32 r with hXdef
  have hcast : ((X : Nat) : Int) =
      q % 4294967296 * (b : Int) + r % 4294967296 := by
    rw [hXdef]
    push_cast [ofInt32_emod_cast q, ofInt32_emod_cast r]
    ring
  have hmod : (q % 4294967296 * (b : Int) + r % 4294967296) % 4294967296 =
      (a : Int) % 4294967296 := by
    have h1 : Int.ModEq 4294967296 (q % 4294967296) q :=
      Int.emod_emod_of_dvd q dvd_rfl
    have h2 : Int.ModEq 4294967296 (r % 4294967296) r :=
      Int.emod_emod_of_dvd r dvd_rfl
    have hbB : Int.ModEq 4294967296 (b : Int) (toInt32 b) := (toInt32_emod b).symm
    have hstep : Int.ModEq 4294967296
        (q % 4294967296 * (b : Int) + r % 4294967296) (q * toInt32 b + r) :=
      (h1.mul hbB).add h2
    have hid : q * toInt32 b + r = toInt32 a := by
      rw [hqdef, hrdef, mul_comm]
      exact Int.tdiv_add_tmod (toInt32 a) (toInt32 b)
    have hlast : Int.ModEq 4294967296 (q * toInt32 b + r) (a : Int) := by
      rw [hid]
      exact toInt32_emod a
    exact hstep.trans hlast
  have hfinal : ((X : Nat) : Int) % 4294967296 = (a : Int) := by
    rw [hcast, hmod]
    omega
  omega

/-- Witness for C4 at `a = 10`, `b = 3`. -/
theorem signed_div_identity_witness :
    (riscv_div 10 3 * 3 + riscv_rem 10 3) % 4294967296 = 10 :=
  signed_div_identity 10 3 (by decide) (by decide) (by decide) (by decide)

/-- C signed division expression `a / b` on `int32_t` operands:
undefined (none) when the divisor is zero or at the `INT_MIN / -1`
overflow, otherwise the truncating quotient. -/
def cDivExpr (A B : Int) : Option Int :=
  if B = 0 ∨ (A = -2147483648 ∧ B = -1) then none else some (Int.tdiv A B)

/-- C signed remainder expression `a % b` on `int32_t` operands, with
the same undefined cases as the division. -/
def cRemExpr (A B : Int) : Option Int :=
  if B = 0 ∨ (A = -2147483648 ∧ B = -1) then none else some (Int.tmod A B)

/-- C unsigned division expression `a / b` on `uint32_t` operands:
undefined when the divisor is zero. -/
def cDivuExpr (a b : Nat) : Option Nat :=
  if b = 0 then none else some (a / b)

/-- C unsigned remainder expression `a % b` on `uint32_t` operands:
undefined when the divisor is zero. -/
def cRemuExpr (a b : Nat) : Option Nat :=
  if b = 0 then none else some (a % b)

/-- The body of `riscv_div` with its division expression evaluated
under the C undefinedness conditions. -/
def riscv_div_checked (a b : Nat) : Option Nat :=
  if b = 0 then some 4294967295
  else if a = 2147483648 ∧ b = 4294967295 then some 2147483648
  else Option.map ofInt32 (cDivExpr (toInt32 a) (toInt32 b))

/-- The body of `riscv_rem` with its remainder expression evaluated
under the C undefinedness conditions. -/
def riscv_rem_checked (a b : Nat) : Option Nat :=
  if b = 0 then some a
  else if a = 2147483648 ∧ b = 4294967295 then some 0
  else Option.map ofInt32 (cRemExpr (toInt32 a) (toInt32 b))

/-- The body of `riscv_divu` with its division expression evaluated
under the C undefinedness conditions. -/
def riscv_divu_checked (a b : Nat) : Option Nat :=
  if b = 0 then some 4294967295 else cDivuExpr a b

/-- The body of `riscv_remu` with its remainder expression evaluated
under the C undefinedness conditions. -/
def riscv_remu_checked (a b : Nat) : Option Nat :=
  if b = 0 then some a else cRemuExpr a b

/-- C9: on every pair of 32-bit inputs, the guards in the four oracle
functions shield the C division expressions from their undefined
cases, so each checked body is defined and agrees with the oracle. -/
theorem oracle_never_ub (a b : Nat) (ha : a < 4294967296)
    (hb : b < 4294967296) :
    riscv_div_checked a b = some (riscv_div a b) ∧
    riscv_rem_checked a b = some (riscv_rem a b) ∧
    riscv_divu_checked a b = some (riscv_divu a b) ∧
    riscv_remu_checked a b = some (riscv_remu a b) := by
  by_cases hb0 : b = 0
  · subst hb0
    exact ⟨rfl, rfl, rfl, rfl⟩
  · by_cases hov : a = 2147483648 ∧ b = 4294967295
    · obtain ⟨h1, h2⟩ := hov
      subst h1
      subst h2
      exact ⟨rfl, rfl, rfl, rfl⟩
    · have hguard : ¬(toInt32 b = 0 ∨ (toInt32 a = -2147483648 ∧ toInt32 b = -1)) := by
        rintro (h | ⟨h1, h2⟩)
        · exact hb0 ((toInt32_eq_zero_iff b hb).mp h)
        · exact hov ⟨(toInt32_eq_intMin_iff a ha).mp h1,
            (toInt32_eq_negOne_iff b hb).mp h2⟩
      refine ⟨?_, ?_, ?_, ?_⟩
      · unfold riscv_div_checked riscv_div cDivExpr
        rw [if_neg hb0, if_neg hov, if_neg hb0, if_neg hov, if_neg hguard]
        rfl
      · unfold riscv_rem_checked riscv_rem cRemExpr
        rw [if_neg hb0, if_neg hov, if_neg hb0, if_neg hov, if_neg hguard]
        rfl
      · unfold riscv_divu_checked riscv_divu cDivuExpr
        rw [if_neg hb0, if_neg hb0, if_neg hb0]
      · unfold riscv_remu_checked riscv_remu cRemuExpr
        rw [if_neg hb0, if_neg hb0, if_neg hb0]

/-- Witness for C9 at `a = 10`, `b = 3`. -/
theorem oracle_never_ub_witness :
    riscv_div_checked 10 3 = some (riscv_div 10 3) ∧
    riscv_rem_checked 10 3 = some (riscv_rem 10 3) ∧
    riscv_divu_checked 10 3 = some (riscv_divu 10 3) ∧
    riscv_remu_checked 10 3 = some (riscv_remu 10 3) :=
  oracle_never_ub 10 3 (by decide) (by decide)

/-- Magnitude of the truncating remainder: the absolute values satisfy
the natural-number remainder equation. -/
lemma natAbs_tmod_eq (a b : Int) :
    (Int.tmod a b).natAbs = a.natAbs % b.natAbs := by
  rcases a with m | m <;> rcases b with n | n <;>
    simp only [Int.tmod, Int.natAbs_neg, Int.natAbs_ofNat, Int.natAbs_negSucc,
      Int.ofNat_eq_coe, Nat.succ_eq_add_one]

/-- The truncating remainder of a nonpositive dividend is
nonpositive. -/
lemma tmod_nonpos_of_nonpos (a b : Int) (h : a ≤ 0) : Int.tmod a b ≤ 0 := by
  rcases a with m | m
  · have hm : m = 0 := by
      simp only [Int.ofNat_eq_coe] at h
      omega
    subst hm
    show Int.tmod 0 b ≤ 0
    simp
  · rcases b with n | n <;>
      simp only [Int.tmod, Int.ofNat_eq_coe] <;> omega

/-- Bounds on the truncating quotient of signed 32-bit values away from
the divisor-zero and `INT_MIN / -1` cases: the quotient fits the signed
32-bit range again. -/
lemma tdiv_bounds (A B : Int) (hA1 : -2147483648 ≤ A) (hA2 : A < 2147483648)
    (hB0 : B ≠ 0) (hov : ¬(A = -2147483648 ∧ B = -1)) :
    -2147483648 ≤ Int.tdiv A B ∧ Int.tdiv A B < 2147483648 := by
  have habs : (Int.tdiv A B).natAbs = A.natAbs / B.natAbs := Int.natAbs_tdiv A B
  have hB1 : 1 ≤ B.natAbs := by omega
  have hle : A.natAbs / B.natAbs ≤ A.natAbs := Nat.div_le_self _ _
  have hAabs : A.natAbs ≤ 2147483648 := by omega
  by_cases hq : Int.tdiv A B = 2147483648
  · exfalso
    have h1 : A.natAbs / B.natAbs = 2147483648 := by
      rw [← habs, hq]
      rfl
    have h2 : A.natAbs / B.natAbs * B.natAbs ≤ A.natAbs := Nat.div_mul_le_self _ _
    rw [h1] at h2
    have hB : B = 1 ∨ B = -1 := by omega
    have hA : A = -2147483648 := by omega
    rcases hB with hB | hB
    · rw [hB, Int.tdiv_one] at hq
      omega
    · exact hov ⟨hA, hB⟩
  · have habs2 : (Int.tdiv A B).natAbs ≤ 2147483648 := by
      rw [habs]
      omega
    omega

/-- C5: away from the divisor-zero and overflow cases the oracle pair
realises truncating division — the quotient and remainder satisfy the
exact division equation over the signed interpretations, the remainder
is smaller in magnitude than the divisor and is zero or carries the
sign of the dividend — and in particular
`riscv_div` of the pattern of `-10` by `3` is `0xFFFFFFFD`. -/
theorem truncating_div_rem (a b : Nat) (ha : a < 4294967296)
    (hb : b < 4294967296) (hb0 : b ≠ 0)
    (hov : ¬(a = 2147483648 ∧ b = 4294967295)) :
    toInt32 b * toInt32 (riscv_div a b) + toInt32 (riscv_rem a b) = toInt32 a ∧
    (toInt32 (riscv_rem a b)).natAbs < (toInt32 b).natAbs ∧
    (toInt32 (riscv_rem a b) = 0 ∨
      (0 < toInt32 (riscv_rem a b) ↔ 0 < toInt32 a)) ∧
    riscv_div 4294967286 3 = 4294967293 := by
  obtain ⟨hA1, hA2⟩ := toInt32_bounds a ha
  obtain ⟨hB1, hB2⟩ := toInt32_bounds b hb
  have hB0 : toInt32 b ≠ 0 := fun h => hb0 ((toInt32_eq_zero_iff b hb).mp h)
  have hIov : ¬(toInt32 a = -2147483648 ∧ toInt32 b = -1) := fun h =>
    hov ⟨(toInt32_eq_intMin_iff a ha).mp h.1, (toInt32_eq_negOne_iff b hb).mp h.2⟩
  have hq : riscv_div a b = ofInt32 (Int.tdiv (toInt32 a) (toInt32 b)) := by
    unfold riscv_div
    rw [if_neg hb0, if_neg hov]
  have hr : riscv_rem a b = ofInt32 (Int.tmod (toInt32 a) (toInt32 b)) := by
    unfold riscv_rem
    rw [if_neg hb0, if_neg hov]
  have hBpos : 0 < (toInt32 b).natAbs := by omega
  have hrlt : (Int.tmod (toInt32 a) (toInt32 b)).natAbs < (toInt32 b).natAbs := by
    rw [natAbs_tmod_eq]
    exact Nat.mod_lt _ hBpos
  have hrrange1 : -2147483648 ≤ Int.tmod (toInt32 a) (toInt32 b) := by omega
  have hrrange2 : Int.tmod (toInt32 a) (toInt32 b) < 2147483648 := by omega
  have hqrange := tdiv_bounds (toInt32 a) (toInt32 b) hA1 hA2 hB0 hIov
  have hqrt : toInt32 (riscv_div a b) = Int.tdiv (toInt32 a) (toInt32 b) := by
    rw [hq]
    exact toInt32_ofInt32 _ hqrange.1 hqrange.2
  have hrrt : toInt32 (riscv_rem a b) = Int.tmod (toInt32 a) (toInt32 b) := by
    rw [hr]
    exact toInt32_ofInt32 _ hrrange1 hrrange2
  refine ⟨?_, ?_, ?_, ?_⟩
  · rw [hqrt, hrrt]
    exact Int.tdiv_add_tmod _ _
  · rw [hrrt]
    exact hrlt
  · rw [hrrt]
    rcases Int.lt_trichotomy (toInt32 a) 0 with hA | hA | hA
    · have hrle : Int.tmod (toInt32 a) (toInt32 b) ≤ 0 :=
        tmod_nonpos_of_nonpos _ _ (by omega)
      rcases eq_or_lt_of_le hrle with he | hlt
      · left
        omega
      · right
        constructor <;> intro h <;> omega
    · left
      rw [hA]
      simp
    · have hrge : 0 ≤ Int.tmod (toInt32 a) (toInt32 b) :=
        Int.tmod_nonneg (toInt32 b) (by omega)
      rcases eq_or_lt_of_le hrge with he | hlt
      · left
        omega
      · right
        constructor <;> intro h <;> omega
  · decide

/-- Witness for C5 at `a = 10`, `b = 3`. -/
theorem truncating_div_rem_witness :
    toInt32 3 * toInt32 (riscv_div 10 3) + toInt32 (riscv_rem 10 3) = toInt32 10 ∧
    (toInt32 (riscv_rem 10 3)).natAbs < (toInt32 3).natAbs ∧
    (toInt32 (riscv_rem 10 3) = 0 ∨
      (0 < toInt32 (riscv_rem 10 3) ↔ 0 < toInt32 10)) ∧
    riscv_div 4294967286 3 = 4294967293 :=
  truncating_div_rem 10 3 (by decide) (by decide) (by decide) (by decide)

end Komandara
